import Mathlib

/-!
Verification of the BMI270 accel/gyro recorder repository.

The repository has two layers:

* a half-duplex, interrupt-driven SPI byte-transfer engine
  (the `read`/`write` entry points, the shared `TransferContext`,
  and the transfer-completion interrupt handler); and
* the application in `main.c` (SPI peripheral configuration,
  the 1000-record sampling loop, and the binary UART output loop).

The engine source file itself is not part of the source tree we were
given (only `main.c` is), so the engine is modelled from the design
document; `main.c` is embedded directly.
-/

/- ## Transfer engine model -/

/-- Modelled from the spec: the `TransferDirection` tagged variant
(`Idle | Transmitting | Receiving`) that governs interrupt-handler
dispatch. The engine source file is missing from the source tree. -/
inductive TransferDirection where
  | Idle
  | Transmitting
  | Receiving
deriving DecidableEq, Repr

/-- Modelled from the spec: the single shared `TransferContext` record
(direction, borrowed buffer, total length, cursor). The engine source
file is missing from the source tree. -/
structure TransferContext where
  direction : TransferDirection
  buffer : List Nat
  length : Nat
  cursor : Nat
deriving DecidableEq, Repr

/-- Modelled from the spec: the full observable state of the engine and
bus. `busTx` records every byte the engine put on the bus, paired with
the state of the device-select signal (`true` = asserted/low) at the
moment the byte was sent. `woken` records whether the interrupt handler
has signalled the suspended foreground caller. -/
structure EngineState where
  ctx : TransferContext
  selectLow : Bool
  interruptEnabled : Bool
  woken : Bool
  busTx : List (Nat × Bool)
deriving DecidableEq, Repr

/-- Modelled from the spec: a byte-boundary hardware event, either
"ready to transmit next byte" or "received byte available" carrying
the byte the device shifted out. -/
inductive BusEvent where
  | readyToTransmit
  | receiveDataAvailable (b : Nat)
deriving DecidableEq, Repr

/-- Modelled from the spec: the transmit-one-byte bus primitive; the byte
is recorded on the simulated bus together with the current select state. -/
def sendByte (b : Nat) (s : EngineState) : EngineState :=
  { s with busTx := s.busTx ++ [(b, s.selectLow)] }

/-- Modelled from the spec: the transfer-completion interrupt handler,
dispatching on current direction crossed with the event type, exactly
the table of section 4.2 of the design document. -/
def spi_isr (ev : BusEvent) (s : EngineState) : EngineState :=
  match s.ctx.direction, ev with
  | .Transmitting, .readyToTransmit =>
      let s1 := sendByte (s.ctx.buffer.getD s.ctx.cursor 0) s
      let c1 := s.ctx.cursor + 1
      if c1 = s.ctx.length then
        { s1 with
          ctx := { s1.ctx with cursor := c1, direction := .Idle },
          woken := true }
      else
        { s1 with ctx := { s1.ctx with cursor := c1 } }
  | .Transmitting, .receiveDataAvailable _ => s
  | .Receiving, .readyToTransmit => sendByte 0 s
  | .Receiving, .receiveDataAvailable b =>
      let buf1 := s.ctx.buffer.set s.ctx.cursor b
      let c1 := s.ctx.cursor + 1
      if c1 = s.ctx.length then
        { s with
          ctx := { s.ctx with buffer := buf1, cursor := c1, direction := .Idle },
          woken := true }
      else
        { s with ctx := { s.ctx with buffer := buf1, cursor := c1 } }
  | .Idle, _ => s

/-- Run the interrupt handler over a sequence of hardware events. -/
def runEvents (evs : List BusEvent) (s : EngineState) : EngineState :=
  match evs with
  | [] => s
  | ev :: rest => runEvents rest (spi_isr ev s)

/-- All intermediate states of a run, the initial state included. -/
def traceStates (evs : List BusEvent) (s : EngineState) : List EngineState :=
  match evs with
  | [] => [s]
  | ev :: rest => s :: traceStates rest (spi_isr ev s)

/-- Modelled from the spec: arming the shared context at transaction
start (reset direction, buffer, length, cursor; clear the wake flag). -/
def armContext (d : TransferDirection) (buf : List Nat) (len : Nat)
    (s : EngineState) : EngineState :=
  { s with ctx := { direction := d, buffer := buf, length := len, cursor := 0 },
           woken := false }

/-- Modelled from the spec: assert (drive low) the device-select signal. -/
def assertSelect (s : EngineState) : EngineState := { s with selectLow := true }

/-- Modelled from the spec: deassert the device-select signal. -/
def deassertSelect (s : EngineState) : EngineState := { s with selectLow := false }

/-- Modelled from the spec: enable the transfer-completion interrupt. -/
def enableInterrupt (s : EngineState) : EngineState :=
  { s with interruptEnabled := true }

/-- Modelled from the spec: disable the transfer-completion interrupt. -/
def disableInterrupt (s : EngineState) : EngineState :=
  { s with interruptEnabled := false }

/-- Hardware event sequence during a transmit-only transaction: one
ready-to-transmit event per data byte. -/
def writeEvents (len : Nat) : List BusEvent :=
  List.replicate len .readyToTransmit

/-- Hardware event sequence during a receive transaction: each device
reply byte is preceded by a ready-to-transmit event (the engine must
emit a dummy byte to clock the reply in). -/
def readEvents : List Nat → List BusEvent
  | [] => []
  | b :: rest => .readyToTransmit :: .receiveDataAvailable b :: readEvents rest

/-- Maximum transfer length supported by the peripheral configuration. -/
def MAX_TRANSFER_LEN : Nat := 46

/-- Modelled from the spec: `write(register_address, data, length)`.
Asserts select, arms the context for transmission, enables the
interrupt, transmits the register address with its most-significant bit
cleared, suspends until woken (the interrupt handler consumes the byte
events), then disables the interrupt and deasserts select. Returns the
final state and a success status. -/
def spi_write (reg : Nat) (data : List Nat) (len : Nat)
    (s : EngineState) : EngineState × Int :=
  let s1 := assertSelect s
  let s2 := armContext .Transmitting data len s1
  let s3 := enableInterrupt s2
  let s4 := sendByte (reg % 128) s3
  let s5 := runEvents (writeEvents len) s4
  let s6 := disableInterrupt s5
  let s7 := deassertSelect s6
  (s7, 0)

/-- Modelled from the spec: `read(register_address, buffer, length)`.
Same shape as `spi_write` with direction `Receiving`; the first bus byte
is the register address with its most-significant bit set, and `replies`
are the bytes the device shifts out afterwards. Returns the final
state, the filled buffer and a success status. -/
def spi_read (reg : Nat) (buf : List Nat) (len : Nat) (replies : List Nat)
    (s : EngineState) : EngineState × List Nat × Int :=
  let s1 := assertSelect s
  let s2 := armContext .Receiving buf len s1
  let s3 := enableInterrupt s2
  let s4 := sendByte (reg ||| 128) s3
  let s5 := runEvents (readEvents replies) s4
  let s6 := disableInterrupt s5
  let s7 := deassertSelect s6
  (s7, s7.ctx.buffer, 0)

/-- Bus segment produced by one write transaction. -/
def writeTxSeg (reg : Nat) (data : List Nat) : List (Nat × Bool) :=
  ((reg % 128) :: data).map (fun b => (b, true))

/-- Bus segment produced by one read transaction. -/
def readTxSeg (reg : Nat) (len : Nat) : List (Nat × Bool) :=
  ((reg ||| 128) :: List.replicate len 0).map (fun b => (b, true))

def sIdleEx : EngineState :=
  { ctx := { direction := .Idle, buffer := [3, 4], length := 2, cursor := 2 },
    selectLow := false, interruptEnabled := false, woken := false, busTx := [] }

def sTxEx : EngineState :=
  { ctx := { direction := .Transmitting, buffer := [10, 20], length := 2, cursor := 0 },
    selectLow := true, interruptEnabled := true, woken := false, busTx := [] }

def sRxEx : EngineState :=
  { ctx := { direction := .Receiving, buffer := [0, 0, 0], length := 3, cursor := 1 },
    selectLow := true, interruptEnabled := true, woken := false, busTx := [] }

/-- Adjacent state pairs of a trace, each pair one handler invocation. -/
def adjPairs (ts : List EngineState) : List (EngineState × EngineState) :=
  ts.zip ts.tail

/-- Step predicate: the transition commits the direction to Idle. -/
def idleCommitStep (a b : EngineState) : Bool :=
  decide (a.ctx.direction ≠ TransferDirection.Idle ∧
    b.ctx.direction = TransferDirection.Idle)

/-- Step predicate: the transition wakes the foreground caller. -/
def wakeStep (a b : EngineState) : Bool :=
  decide (a.woken = false ∧ b.woken = true)

/-- Number of adjacent steps of a trace satisfying a step predicate. -/
def countAdj (p : EngineState → EngineState → Bool) : List EngineState → Nat
  | a :: b :: rest => (if p a b then 1 else 0) + countAdj p (b :: rest)
  | _ => 0

/-- Engine state right after the foreground actor has armed a write
transaction and transmitted the address byte. -/
def writeArmed (reg : Nat) (data : List Nat) (len : Nat)
    (s : EngineState) : EngineState :=
  sendByte (reg % 128) (enableInterrupt (armContext .Transmitting data len
    (assertSelect s)))

/-- Engine state right after the foreground actor has armed a read
transaction and transmitted the address byte. -/
def readArmed (reg : Nat) (buf : List Nat) (len : Nat)
    (s : EngineState) : EngineState :=
  sendByte (reg ||| 128) (enableInterrupt (armContext .Receiving buf len
    (assertSelect s)))

/-- The cursor/length safety invariant of the shared context. -/
def cursorInv (t : EngineState) : Prop :=
  t.ctx.cursor ≤ t.ctx.length ∧
  (t.ctx.direction ≠ .Idle → t.ctx.cursor < t.ctx.length)

/- ## Embedding of main.c -/

/-- Bit order selector of the EUSCI_B SPI peripheral (driverlib enum). -/
inductive SpiBitOrder where
  | msbFirstOrder
  | lsbFirstOrder
deriving DecidableEq, Repr

/-- Driverlib constant selecting most-significant-bit-first shifting. -/
def EUSCI_B_SPI_MSB_FIRST : SpiBitOrder := .msbFirstOrder

/-- Driverlib constant selecting least-significant-bit-first shifting. -/
def EUSCI_B_SPI_LSB_FIRST : SpiBitOrder := .lsbFirstOrder

/-- Clock source selector of the EUSCI_B SPI peripheral (driverlib enum). -/
inductive SpiClockSource where
  | aclkSource
  | smclkSource
deriving DecidableEq, Repr

/-- Driverlib constant selecting SMCLK as the SPI clock source. -/
def EUSCI_B_SPI_CLOCKSOURCE_SMCLK : SpiClockSource := .smclkSource

/-- Clock phase selector of the EUSCI_B SPI peripheral (driverlib enum). -/
inductive SpiClockPhase where
  | dataChangedOnFirstCapturedOnNext
  | dataCapturedOnFirstChangedOnNext
deriving DecidableEq, Repr

/-- Driverlib constant: data changed on first edge, captured on next. -/
def EUSCI_B_SPI_PHASE_DATA_CHANGED_ONFIRST_CAPTURED_ON_NEXT : SpiClockPhase :=
  .dataChangedOnFirstCapturedOnNext

/-- Clock polarity selector of the EUSCI_B SPI peripheral (driverlib enum). -/
inductive SpiClockPolarity where
  | inactivityLow
  | inactivityHigh
deriving DecidableEq, Repr

/-- Driverlib constant: clock line idles low. -/
def EUSCI_B_SPI_CLOCKPOLARITY_INACTIVITY_LOW : SpiClockPolarity := .inactivityLow

/-- Pin mode selector of the EUSCI_B SPI peripheral (driverlib enum). -/
inductive SpiPinMode where
  | threePin
  | fourPinSteActiveHigh
  | fourPinSteActiveLow
deriving DecidableEq, Repr

/-- Driverlib constant: four-pin mode with active-low STE. -/
def EUSCI_B_SPI_4PIN_UCxSTE_ACTIVE_LOW : SpiPinMode := .fourPinSteActiveLow

/-- SMCLK frequency as configured by init_clk in main.c: the DCO is set to
8 MHz and SMCLK is sourced from it with divider 1. -/
def CS_getSMCLK : Nat := 8000000

/-- Master initialization parameter block of the EUSCI_B SPI peripheral
(driverlib struct EUSCI_B_SPI_initMasterParam). -/
structure EUSCI_B_SPI_initMasterParam where
  selectClockSource : SpiClockSource
  clockSourceFrequency : Nat
  desiredSpiClock : Nat
  clockPhase : SpiClockPhase
  clockPolarity : SpiClockPolarity
  msbFirst : SpiBitOrder
  spiMode : SpiPinMode
deriving DecidableEq, Repr

/-- The parameter block built by init_spi in main.c (lines 104-114). -/
def init_spi_param : EUSCI_B_SPI_initMasterParam :=
  { selectClockSource := EUSCI_B_SPI_CLOCKSOURCE_SMCLK,
    clockSourceFrequency := CS_getSMCLK,
    desiredSpiClock := 2000000,
    clockPhase := EUSCI_B_SPI_PHASE_DATA_CHANGED_ONFIRST_CAPTURED_ON_NEXT,
    clockPolarity := EUSCI_B_SPI_CLOCKPOLARITY_INACTIVITY_LOW,
    msbFirst := EUSCI_B_SPI_MSB_FIRST,
    spiMode := EUSCI_B_SPI_4PIN_UCxSTE_ACTIVE_LOW }

/-- Number of records to capture: 200 Hz times 20 seconds (main.c). -/
def DATA_LEN : Nat := 1000

/-- Success status of the Bosch BMI2 sensor API. -/
def BMI2_OK : Int := 0

/-- Accelerometer data-ready bit of the BMI270 status register, from the
vendored BMI270 SensorAPI headers. -/
def BMI2_DRDY_ACC : Nat := 0x80

/-- Gyroscope data-ready bit of the BMI270 status register, from the
vendored BMI270 SensorAPI headers. -/
def BMI2_DRDY_GYR : Nat := 0x40

/-- One three-axis sample of the BMI2 sensor API (struct bmi2_sens_axes_data),
signed 16-bit per axis. -/
structure Bmi2SensAxes where
  x : Int
  y : Int
  z : Int
deriving DecidableEq, Repr

/-- One record of the BMI2 sensor API (struct bmi2_sens_data): accel and
gyro samples, the 32-bit sensor timestamp and the status register byte. -/
structure Bmi2SensData where
  acc : Bmi2SensAxes
  gyr : Bmi2SensAxes
  sens_time : Nat
  status : Nat
deriving DecidableEq, Repr

/-- The zero-initialized record the persistent sensor_data array starts
with (main.c line 27). -/
def Bmi2SensData.zero : Bmi2SensData :=
  { acc := { x := 0, y := 0, z := 0 }, gyr := { x := 0, y := 0, z := 0 },
    sens_time := 0, status := 0 }

/-- Condition under which the sampling loop of main keeps a record
(main.c lines 263-264): the API returned BMI2_OK and both data-ready
bits are set in the status byte. -/
def goodSample (rslt : Int) (d : Bmi2SensData) : Bool :=
  (rslt == BMI2_OK) && (d.status &&& BMI2_DRDY_ACC != 0) &&
    (d.status &&& BMI2_DRDY_GYR != 0)

/-- The sampling loop of main (main.c lines 258-280), driven by the
sequence of results the sensor API would deliver on successive polls.
Returns the stored records, the final index and whether the loop
finished (with an unbounded poll source the C loop only exits once
indx reaches DATA_LEN; a poll list that runs dry first corresponds to
the C loop spinning forever, reported as false). -/
def samplingLoop : List (Int × Bmi2SensData) → Nat → List Bmi2SensData →
    List Bmi2SensData × Nat × Bool
  | [], indx, recs =>
    if indx < DATA_LEN then (recs, indx, false) else (recs, indx, true)
  | (rslt, d) :: rest, indx, recs =>
    if indx < DATA_LEN then
      if goodSample rslt d then samplingLoop rest (indx + 1) (recs ++ [d])
      else samplingLoop rest indx recs
    else (recs, indx, true)

/-- Little-endian byte pair of the low 16 bits of a natural number. -/
def le16 (n : Nat) : List Nat := [n % 256, n / 256 % 256]

/-- The 16 bytes main assembles for one record (main.c lines 300-316):
the record index and the low half of the timestamp as unsigned
little-endian pairs, then the six signed 16-bit axis values, each as
low byte (x & 0xff) followed by the arithmetic-shift high byte
(x >> 8) truncated to a char. -/
def outputBytes (indx : Nat) (d : Bmi2SensData) : List Nat :=
  [ indx % 256, indx / 256 % 256,
    d.sens_time % 256, d.sens_time / 256 % 256,
    (d.acc.x % 256).toNat, (d.acc.x / 256 % 256).toNat,
    (d.acc.y % 256).toNat, (d.acc.y / 256 % 256).toNat,
    (d.acc.z % 256).toNat, (d.acc.z / 256 % 256).toNat,
    (d.gyr.x % 256).toNat, (d.gyr.x / 256 % 256).toNat,
    (d.gyr.y % 256).toNat, (d.gyr.y / 256 % 256).toNat,
    (d.gyr.z % 256).toNat, (d.gyr.z / 256 % 256).toNat ]

/-- The UART output loop of main (main.c lines 282-318): one 16-byte
frame per index 0..DATA_LEN-1 read back from the sensor_data array. -/
def outputLoop (sensorData : Nat → Bmi2SensData) : List (List Nat) :=
  (List.range DATA_LEN).map (fun i => outputBytes i (sensorData i))

/-- Environment of one run of main: the status codes returned by
bmi270_init, set_accel_gyro_config and bmi2_sensor_enable, and the
stream of poll results bmi2_get_sensor_data would deliver. -/
structure MainEnv where
  initRslt : Int
  cfgRslt : Int
  enableRslt : Int
  polls : List (Int × Bmi2SensData)
deriving DecidableEq, Repr

/-- Staged control flow of main (main.c lines 229-321): each stage runs
only if the previous status was BMI2_OK; the UART frames exist only if
the sampling loop finished (otherwise the C program loops forever and
never reaches the output stage, reported as none). Returns the records
stored by the sampling loop and the optional UART frames. -/
def mainRun (env : MainEnv) : List Bmi2SensData × Option (List (List Nat)) :=
  if env.initRslt = BMI2_OK then
    if env.cfgRslt = BMI2_OK then
      if env.enableRslt = BMI2_OK then
        match h : samplingLoop env.polls 0 [] with
        | (recs, _, true) =>
          (recs, some (outputLoop (fun i => recs.getD i Bmi2SensData.zero)))
        | (recs, _, false) => (recs, none)
      else ([], none)
    else ([], none)
  else ([], none)

/-- Signed 16-bit range. -/
def int16Range (v : Int) : Prop := -32768 ≤ v ∧ v < 32768

/-- All six axis fields of a record are in signed 16-bit range. -/
def recInRange (d : Bmi2SensData) : Prop :=
  int16Range d.acc.x ∧ int16Range d.acc.y ∧ int16Range d.acc.z ∧
  int16Range d.gyr.x ∧ int16Range d.gyr.y ∧ int16Range d.gyr.z

/-- Little-endian pair of the 16-bit twos-complement pattern of a
signed value. -/
def int16ToBytesLE (v : Int) : List Nat := le16 (v % 65536).toNat

/-- A quiescent engine state used to instantiate the theorems. -/
def engineStart : EngineState :=
  { ctx := { direction := .Idle, buffer := [], length := 0, cursor := 0 },
    selectLow := false, interruptEnabled := false, woken := false, busTx := [] }

lemma spi_isr_tx_rtt (s : EngineState) (h : s.ctx.direction = .Transmitting) :
    spi_isr .readyToTransmit s =
      if s.ctx.cursor + 1 = s.ctx.length then
        { ctx := { direction := .Idle, buffer := s.ctx.buffer,
                   length := s.ctx.length, cursor := s.ctx.cursor + 1 },
          selectLow := s.selectLow, interruptEnabled := s.interruptEnabled,
          woken := true,
          busTx := s.busTx ++ [(s.ctx.buffer.getD s.ctx.cursor 0, s.selectLow)] }
      else
        { ctx := { direction := .Transmitting, buffer := s.ctx.buffer,
                   length := s.ctx.length, cursor := s.ctx.cursor + 1 },
          selectLow := s.selectLow, interruptEnabled := s.interruptEnabled,
          woken := s.woken,
          busTx := s.busTx ++ [(s.ctx.buffer.getD s.ctx.cursor 0, s.selectLow)] } := by
  obtain ⟨⟨d, buf, len, cur⟩, sel, ie, w, tx⟩ := s
  simp only at h
  subst h
  rfl

lemma spi_isr_tx_rda (s : EngineState) (b : Nat)
    (h : s.ctx.direction = .Transmitting) :
    spi_isr (.receiveDataAvailable b) s = s := by
  obtain ⟨⟨d, buf, len, cur⟩, sel, ie, w, tx⟩ := s
  simp only at h
  subst h
  rfl

lemma spi_isr_rx_rtt (s : EngineState) (h : s.ctx.direction = .Receiving) :
    spi_isr .readyToTransmit s = sendByte 0 s := by
  obtain ⟨⟨d, buf, len, cur⟩, sel, ie, w, tx⟩ := s
  simp only at h
  subst h
  rfl

lemma spi_isr_rx_rda (s : EngineState) (b : Nat)
    (h : s.ctx.direction = .Receiving) :
    spi_isr (.receiveDataAvailable b) s =
      if s.ctx.cursor + 1 = s.ctx.length then
        { ctx := { direction := .Idle, buffer := s.ctx.buffer.set s.ctx.cursor b,
                   length := s.ctx.length, cursor := s.ctx.cursor + 1 },
          selectLow := s.selectLow, interruptEnabled := s.interruptEnabled,
          woken := true, busTx := s.busTx }
      else
        { ctx := { direction := .Receiving, buffer := s.ctx.buffer.set s.ctx.cursor b,
                   length := s.ctx.length, cursor := s.ctx.cursor + 1 },
          selectLow := s.selectLow, interruptEnabled := s.interruptEnabled,
          woken := s.woken, busTx := s.busTx } := by
  obtain ⟨⟨d, buf, len, cur⟩, sel, ie, w, tx⟩ := s
  simp only at h
  subst h
  rfl

lemma spi_isr_idle (s : EngineState) (ev : BusEvent)
    (h : s.ctx.direction = .Idle) :
    spi_isr ev s = s := by
  obtain ⟨⟨d, buf, len, cur⟩, sel, ie, w, tx⟩ := s
  simp only at h
  subst h
  cases ev <;> rfl

lemma writeEvents_succ (k : Nat) :
    writeEvents (k + 1) = .readyToTransmit :: writeEvents k := rfl

lemma runEvents_cons (ev : BusEvent) (evs : List BusEvent) (s : EngineState) :
    runEvents (ev :: evs) s = runEvents evs (spi_isr ev s) := rfl

lemma runEvents_writeEvents : ∀ (k : Nat) (s : EngineState),
    s.ctx.direction = .Transmitting →
    1 ≤ k →
    s.ctx.cursor + k = s.ctx.length →
    s.ctx.length ≤ s.ctx.buffer.length →
    runEvents (writeEvents k) s =
      { ctx := { direction := .Idle, buffer := s.ctx.buffer,
                 length := s.ctx.length, cursor := s.ctx.length },
        selectLow := s.selectLow,
        interruptEnabled := s.interruptEnabled,
        woken := true,
        busTx := s.busTx ++
          ((s.ctx.buffer.drop s.ctx.cursor).take k).map
            (fun b => (b, s.selectLow)) } := by
  intro k
  induction k with
  | zero => intro s _ hk; omega
  | succ k ih =>
    intro s hdir _ hlen hbuf
    have hcur : s.ctx.cursor < s.ctx.buffer.length := by omega
    have hdrop : s.ctx.buffer.drop s.ctx.cursor =
        s.ctx.buffer.get ⟨s.ctx.cursor, hcur⟩ :: s.ctx.buffer.drop (s.ctx.cursor + 1) := by
      simpa using List.drop_eq_getElem_cons hcur
    have hgetD : s.ctx.buffer.getD s.ctx.cursor 0 =
        s.ctx.buffer.get ⟨s.ctx.cursor, hcur⟩ := by
      simp [List.getD_eq_getElem?_getD, List.getElem?_eq_getElem hcur]
    rw [writeEvents_succ, runEvents_cons, spi_isr_tx_rtt s hdir]
    rcases Nat.eq_zero_or_pos k with hk0 | hkpos
    · subst hk0
      rw [if_pos (by omega)]
      have h0 : runEvents (writeEvents 0) = id := rfl
      rw [h0]
      simp only [id_eq, hdrop, hgetD, List.take_succ_cons, List.take_zero,
        List.map_cons, List.map_nil, EngineState.mk.injEq, TransferContext.mk.injEq]
      refine ⟨⟨trivial, trivial, trivial, by omega⟩, trivial, trivial, trivial, trivial⟩
    · rw [if_neg (by omega)]
      rw [ih _ (by simp) (by omega) (by simp; omega) (by simp; omega)]
      simp only [hdrop, hgetD, List.take_succ_cons, List.map_cons,
        List.append_assoc, List.cons_append, List.nil_append,
        EngineState.mk.injEq, TransferContext.mk.injEq]

lemma take_succ_set (buf : List Nat) (c b : Nat) (h : c < buf.length) :
    (buf.set c b).take (c + 1) = buf.take c ++ [b] := by
  rw [List.set_eq_take_cons_drop b h, List.take_append_eq_append_take]
  have h1 : (buf.take c).length = c := by simp; omega
  rw [List.take_of_length_le (by omega), h1]
  simp

lemma readEvents_cons (b : Nat) (rest : List Nat) :
    readEvents (b :: rest) =
      .readyToTransmit :: .receiveDataAvailable b :: readEvents rest := rfl

lemma runEvents_readEvents : ∀ (replies : List Nat) (s : EngineState),
    s.ctx.direction = .Receiving →
    1 ≤ replies.length →
    s.ctx.cursor + replies.length = s.ctx.length →
    s.ctx.buffer.length = s.ctx.length →
    runEvents (readEvents replies) s =
      { ctx := { direction := .Idle,
                 buffer := s.ctx.buffer.take s.ctx.cursor ++ replies,
                 length := s.ctx.length, cursor := s.ctx.length },
        selectLow := s.selectLow,
        interruptEnabled := s.interruptEnabled,
        woken := true,
        busTx := s.busTx ++ List.replicate replies.length (0, s.selectLow) } := by
  intro replies
  induction replies with
  | nil => intro s _ hk; simp at hk
  | cons b rest ih =>
    intro s hdir _ hlen hbuf
    have hcur : s.ctx.cursor < s.ctx.buffer.length := by
      simp at hlen ⊢; omega
    rw [readEvents_cons, runEvents_cons, spi_isr_rx_rtt s hdir, runEvents_cons]
    have hdir1 : (sendByte 0 s).ctx.direction = .Receiving := hdir
    rw [spi_isr_rx_rda (sendByte 0 s) b hdir1]
    rcases List.eq_nil_or_concat rest with hr0 | _
    case inl =>
      subst hr0
      rw [if_pos (by simp [sendByte]; simp at hlen; omega)]
      have hset : s.ctx.buffer.set s.ctx.cursor b =
          s.ctx.buffer.take s.ctx.cursor ++ [b] := by
        rw [List.set_eq_take_cons_drop b hcur]
        have : s.ctx.buffer.drop (s.ctx.cursor + 1) = [] := by
          apply List.drop_eq_nil_of_le
          simp at hlen; omega
        rw [this]
      simp only [sendByte, runEvents]
      simp only [EngineState.mk.injEq, TransferContext.mk.injEq]
      refine ⟨⟨trivial, hset, trivial, by simp at hlen; omega⟩, trivial, trivial,
        trivial, by simp⟩
    case inr =>
      have hkpos : 1 ≤ rest.length := by
        rcases rest with _ | ⟨x, xs⟩
        · simp at *
        · simp
      rw [if_neg (by simp [sendByte]; simp at hlen; omega)]
      rw [ih _ (by simp) hkpos (by simp [sendByte]; simp at hlen; omega)
        (by simp [sendByte]; omega)]
      simp only [sendByte, EngineState.mk.injEq, TransferContext.mk.injEq]
      refine ⟨⟨trivial, ?_, trivial, trivial⟩, trivial, trivial, trivial, ?_⟩
      · rw [take_succ_set _ _ _ hcur]
        simp
      · simp [List.replicate_succ]

/-- C1: for every valid length in [1, MAX], after write(register_address, data,
length) returns, the bus observed exactly the register address with its
most-significant bit cleared followed by the length data bytes, in order, each
put on the bus while the device-select signal was asserted; on return the
select signal is deasserted, the transfer interrupt is disabled, the context is
Idle again and the status is success. -/
theorem write_contract (reg : Nat) (data : List Nat) (len : Nat) (s : EngineState)
    (hlen : data.length = len) (hpos : 1 ≤ len) (hmax : len ≤ MAX_TRANSFER_LEN)
    (hsel : s.selectLow = false) :
    (spi_write reg data len s).1.busTx =
        s.busTx ++ ((reg % 128) :: data).map (fun b => (b, true)) ∧
    ((reg % 128) :: data).length = len + 1 ∧
    (reg % 128).testBit 7 = false ∧
    (spi_write reg data len s).1.selectLow = false ∧
    (spi_write reg data len s).1.interruptEnabled = false ∧
    (spi_write reg data len s).1.ctx.direction = .Idle ∧
    (spi_write reg data len s).2 = 0 := by
  have h := runEvents_writeEvents len
    { ctx := { direction := .Transmitting, buffer := data, length := len, cursor := 0 },
      selectLow := true, interruptEnabled := true, woken := false,
      busTx := s.busTx ++ [(reg % 128, true)] }
    (by simp) hpos (by simp) (by simp; omega)
  simp only [spi_write, assertSelect, armContext, enableInterrupt, sendByte,
    disableInterrupt, deassertSelect] at *
  rw [h]
  refine ⟨?_, by simp [hlen], Nat.testBit_eq_false_of_lt (by omega), ?_, ?_, ?_, ?_⟩
  case refine_1 => simp [hlen, List.take_of_length_le]
  all_goals trivial

/-- C2: for every valid length, after read(register_address, buffer, length)
returns, the bus observed the register address with its most-significant bit
set followed by exactly length dummy 0x00 bytes (one per incoming byte), and
the returned buffer holds exactly the length bytes the device replied, in
order; select is deasserted and the interrupt disabled on return. -/
theorem read_contract (reg : Nat) (buf : List Nat) (len : Nat) (replies : List Nat)
    (s : EngineState)
    (hbuf : buf.length = len) (hrep : replies.length = len) (hpos : 1 ≤ len) :
    (spi_read reg buf len replies s).1.busTx =
        s.busTx ++ ((reg ||| 128) :: List.replicate len 0).map (fun b => (b, true)) ∧
    (spi_read reg buf len replies s).2.1 = replies ∧
    ((reg ||| 128) :: List.replicate len 0).length = len + 1 ∧
    (reg ||| 128).testBit 7 = true ∧
    (spi_read reg buf len replies s).1.selectLow = false ∧
    (spi_read reg buf len replies s).1.interruptEnabled = false ∧
    (spi_read reg buf len replies s).1.ctx.direction = .Idle ∧
    (spi_read reg buf len replies s).2.2 = 0 := by
  have h := runEvents_readEvents replies
    { ctx := { direction := .Receiving, buffer := buf, length := len, cursor := 0 },
      selectLow := true, interruptEnabled := true, woken := false,
      busTx := s.busTx ++ [(reg ||| 128, true)] }
    (by simp) (by omega) (by simp [hrep]) (by simp [hbuf])
  simp only [spi_read, assertSelect, armContext, enableInterrupt, sendByte,
    disableInterrupt, deassertSelect] at *
  rw [h]
  refine ⟨?_, by simp, by simp, ?_, ?_, ?_, ?_, ?_⟩
  case refine_1 => simp [hrep, List.map_replicate]
  case refine_2 =>
    rw [Nat.testBit_lor]
    have h128 : Nat.testBit 128 7 = true := by decide
    simp [h128]
  all_goals trivial

lemma spi_write_final (reg : Nat) (data : List Nat) (len : Nat) (s : EngineState)
    (hlen : data.length = len) (hpos : 1 ≤ len) :
    spi_write reg data len s =
      ({ ctx := { direction := .Idle, buffer := data, length := len, cursor := len },
         selectLow := false, interruptEnabled := false, woken := true,
         busTx := s.busTx ++ writeTxSeg reg data }, 0) := by
  have h := runEvents_writeEvents len
    { ctx := { direction := .Transmitting, buffer := data, length := len, cursor := 0 },
      selectLow := true, interruptEnabled := true, woken := false,
      busTx := s.busTx ++ [(reg % 128, true)] }
    (by simp) hpos (by simp) (by simp; omega)
  simp only [spi_write, assertSelect, armContext, enableInterrupt, sendByte,
    disableInterrupt, deassertSelect]
  rw [h]
  simp [writeTxSeg, hlen, List.take_of_length_le]

lemma spi_read_final (reg : Nat) (buf : List Nat) (len : Nat) (replies : List Nat)
    (s : EngineState)
    (hbuf : buf.length = len) (hrep : replies.length = len) (hpos : 1 ≤ len) :
    spi_read reg buf len replies s =
      ({ ctx := { direction := .Idle, buffer := replies, length := len, cursor := len },
         selectLow := false, interruptEnabled := false, woken := true,
         busTx := s.busTx ++ readTxSeg reg len }, replies, 0) := by
  have h := runEvents_readEvents replies
    { ctx := { direction := .Receiving, buffer := buf, length := len, cursor := 0 },
      selectLow := true, interruptEnabled := true, woken := false,
      busTx := s.busTx ++ [(reg ||| 128, true)] }
    (by simp) (by omega) (by simp [hrep]) (by simp [hbuf])
  simp only [spi_read, assertSelect, armContext, enableInterrupt, sendByte,
    disableInterrupt, deassertSelect]
  rw [h]
  simp [readTxSeg, hrep, List.map_replicate]

/-- C6: issuing write, then read, then write again yields three independent,
non-interfering transactions: the context direction is Idle after each one,
each bus segment is a pure function of that call arguments alone, the read
returns exactly the device replies, and every status is success. -/
theorem restart_independence (reg1 reg2 reg3 : Nat) (d1 d3 buf2 replies : List Nat)
    (n1 n2 n3 : Nat) (s : EngineState)
    (h1 : d1.length = n1) (hp1 : 1 ≤ n1)
    (hb2 : buf2.length = n2) (hr2 : replies.length = n2) (hp2 : 1 ≤ n2)
    (h3 : d3.length = n3) (hp3 : 1 ≤ n3) :
    (spi_write reg1 d1 n1 s).1.ctx.direction = .Idle ∧
    ((spi_read reg2 buf2 n2 replies (spi_write reg1 d1 n1 s).1).1.ctx.direction = .Idle) ∧
    ((spi_write reg3 d3 n3
        (spi_read reg2 buf2 n2 replies (spi_write reg1 d1 n1 s).1).1).1.ctx.direction
      = .Idle) ∧
    (spi_write reg1 d1 n1 s).1.busTx = s.busTx ++ writeTxSeg reg1 d1 ∧
    (spi_read reg2 buf2 n2 replies (spi_write reg1 d1 n1 s).1).1.busTx =
      s.busTx ++ writeTxSeg reg1 d1 ++ readTxSeg reg2 n2 ∧
    (spi_read reg2 buf2 n2 replies (spi_write reg1 d1 n1 s).1).2.1 = replies ∧
    (spi_write reg3 d3 n3
        (spi_read reg2 buf2 n2 replies (spi_write reg1 d1 n1 s).1).1).1.busTx =
      s.busTx ++ writeTxSeg reg1 d1 ++ readTxSeg reg2 n2 ++ writeTxSeg reg3 d3 ∧
    (spi_write reg1 d1 n1 s).2 = 0 ∧
    (spi_read reg2 buf2 n2 replies (spi_write reg1 d1 n1 s).1).2.2 = 0 ∧
    (spi_write reg3 d3 n3
        (spi_read reg2 buf2 n2 replies (spi_write reg1 d1 n1 s).1).1).2 = 0 := by
  rw [spi_write_final reg1 d1 n1 s h1 hp1]
  rw [spi_read_final reg2 buf2 n2 replies _ hb2 hr2 hp2]
  rw [spi_write_final reg3 d3 n3 _ h3 hp3]
  simp [List.append_assoc]

/-- C3: the interrupt handler dispatch on (direction, event type) implements
exactly the specified table: in Transmitting a ready-to-transmit event sends
buffer[cursor] and increments the cursor, going Idle and waking the foreground
exactly when the cursor reaches the length; in Receiving a ready-to-transmit
event sends a dummy 0 byte and a receive event stores the byte at the cursor
and advances the same way; the two ignore cells (Transmitting with a receive
event, and Idle with any event) mutate no state at all. -/
theorem isr_dispatch_table (s : EngineState) (b : Nat) :
    (s.ctx.direction = .Idle → ∀ ev, spi_isr ev s = s) ∧
    (s.ctx.direction = .Transmitting → spi_isr (.receiveDataAvailable b) s = s) ∧
    (s.ctx.direction = .Transmitting →
      (spi_isr .readyToTransmit s).busTx =
        s.busTx ++ [(s.ctx.buffer.getD s.ctx.cursor 0, s.selectLow)] ∧
      (spi_isr .readyToTransmit s).ctx.cursor = s.ctx.cursor + 1 ∧
      (spi_isr .readyToTransmit s).ctx.buffer = s.ctx.buffer ∧
      ((spi_isr .readyToTransmit s).ctx.direction = .Idle ↔
        s.ctx.cursor + 1 = s.ctx.length) ∧
      ((spi_isr .readyToTransmit s).woken = true ↔
        (s.ctx.cursor + 1 = s.ctx.length ∨ s.woken = true))) ∧
    (s.ctx.direction = .Receiving →
      spi_isr .readyToTransmit s = sendByte 0 s ∧
      (sendByte 0 s).busTx = s.busTx ++ [(0, s.selectLow)] ∧
      (sendByte 0 s).ctx = s.ctx ∧ (sendByte 0 s).woken = s.woken) ∧
    (s.ctx.direction = .Receiving →
      (spi_isr (.receiveDataAvailable b) s).ctx.buffer =
        s.ctx.buffer.set s.ctx.cursor b ∧
      (spi_isr (.receiveDataAvailable b) s).ctx.cursor = s.ctx.cursor + 1 ∧
      (spi_isr (.receiveDataAvailable b) s).busTx = s.busTx ∧
      ((spi_isr (.receiveDataAvailable b) s).ctx.direction = .Idle ↔
        s.ctx.cursor + 1 = s.ctx.length) ∧
      ((spi_isr (.receiveDataAvailable b) s).woken = true ↔
        (s.ctx.cursor + 1 = s.ctx.length ∨ s.woken = true))) := by
  refine ⟨fun h ev => spi_isr_idle s ev h, fun h => spi_isr_tx_rda s b h,
    fun h => ?_, fun h => ⟨spi_isr_rx_rtt s h, rfl, rfl, rfl⟩, fun h => ?_⟩
  · rw [spi_isr_tx_rtt s h]
    by_cases hc : s.ctx.cursor + 1 = s.ctx.length
    · rw [if_pos hc]
      simp [hc]
    · rw [if_neg hc]
      simp [hc]
  · rw [spi_isr_rx_rda s b h]
    by_cases hc : s.ctx.cursor + 1 = s.ctx.length
    · rw [if_pos hc]
      simp [hc]
    · rw [if_neg hc]
      simp [hc]

/-- Witness: the C3 dispatch table evaluated on concrete states in each
direction. -/
theorem isr_dispatch_table_witness :
    (∀ ev, spi_isr ev sIdleEx = sIdleEx) ∧
    spi_isr (.receiveDataAvailable 7) sTxEx = sTxEx ∧
    ((spi_isr .readyToTransmit sTxEx).busTx =
        sTxEx.busTx ++ [(sTxEx.ctx.buffer.getD sTxEx.ctx.cursor 0, sTxEx.selectLow)] ∧
      (spi_isr .readyToTransmit sTxEx).ctx.cursor = sTxEx.ctx.cursor + 1 ∧
      (spi_isr .readyToTransmit sTxEx).ctx.buffer = sTxEx.ctx.buffer ∧
      ((spi_isr .readyToTransmit sTxEx).ctx.direction = .Idle ↔
        sTxEx.ctx.cursor + 1 = sTxEx.ctx.length) ∧
      ((spi_isr .readyToTransmit sTxEx).woken = true ↔
        (sTxEx.ctx.cursor + 1 = sTxEx.ctx.length ∨ sTxEx.woken = true))) ∧
    (spi_isr .readyToTransmit sRxEx = sendByte 0 sRxEx) ∧
    ((spi_isr (.receiveDataAvailable 7) sRxEx).ctx.buffer =
        sRxEx.ctx.buffer.set sRxEx.ctx.cursor 7 ∧
      (spi_isr (.receiveDataAvailable 7) sRxEx).ctx.cursor = sRxEx.ctx.cursor + 1) :=
  ⟨(isr_dispatch_table sIdleEx 7).1 rfl,
   (isr_dispatch_table sTxEx 7).2.1 rfl,
   (isr_dispatch_table sTxEx 7).2.2.1 rfl,
   ((isr_dispatch_table sRxEx 7).2.2.2.1 rfl).1,
   ⟨((isr_dispatch_table sRxEx 7).2.2.2.2 rfl).1,
    ((isr_dispatch_table sRxEx 7).2.2.2.2 rfl).2.1⟩⟩

lemma spi_isr_dichotomy (ev : BusEvent) (s : EngineState) :
    ((spi_isr ev s).ctx.direction = s.ctx.direction ∧
     (spi_isr ev s).woken = s.woken) ∨
    (s.ctx.direction ≠ .Idle ∧ (spi_isr ev s).ctx.direction = .Idle ∧
     (spi_isr ev s).woken = true ∧
     (spi_isr ev s).ctx.cursor = (spi_isr ev s).ctx.length) := by
  obtain ⟨⟨d, buf, len, cur⟩, sel, ie, w, tx⟩ := s
  cases d <;> cases ev <;> simp only [spi_isr, sendByte]
  · left; simp
  · left; simp
  · by_cases hc : cur + 1 = len
    · rw [if_pos hc]; right; simp [hc]
    · rw [if_neg hc]; left; simp
  · left; simp
  · left; simp
  · by_cases hc : cur + 1 = len
    · rw [if_pos hc]; right; simp [hc]
    · rw [if_neg hc]; left; simp

lemma traceStates_head (evs : List BusEvent) (s : EngineState) :
    ∃ rest, traceStates evs s = s :: rest := by
  cases evs <;> exact ⟨_, rfl⟩

lemma traceStates_idle (evs : List BusEvent) (s : EngineState)
    (h : s.ctx.direction = .Idle) :
    traceStates evs s = List.replicate (evs.length + 1) s := by
  induction evs with
  | nil => rfl
  | cons ev evs ih =>
    show s :: traceStates evs (spi_isr ev s) = _
    rw [spi_isr_idle s ev h, ih]
    rfl

lemma countAdj_replicate (p : EngineState → EngineState → Bool) (s : EngineState)
    (h : p s s = false) : ∀ n, countAdj p (List.replicate n s) = 0 := by
  intro n
  induction n with
  | zero => rfl
  | succ n ih =>
    cases n with
    | zero => rfl
    | succ m =>
      show (if p s s then 1 else 0) + countAdj p (List.replicate (m + 1) s) = 0
      rw [h, ih]
      simp

lemma countAdj_traceStates_commit
    (p : EngineState → EngineState → Bool)
    (hstep : ∀ ev t, t.ctx.direction ≠ .Idle → t.woken = false →
      p t (spi_isr ev t) = decide ((spi_isr ev t).ctx.direction = .Idle))
    (hself : ∀ t, t.ctx.direction = .Idle → p t t = false) :
    ∀ (evs : List BusEvent) (s : EngineState),
      s.ctx.direction ≠ .Idle → s.woken = false →
      (runEvents evs s).ctx.direction = .Idle →
      countAdj p (traceStates evs s) = 1 := by
  intro evs
  induction evs with
  | nil =>
    intro s hdir _ hfin
    exact absurd hfin hdir
  | cons ev evs ih =>
    intro s hdir hwoken hfin
    obtain ⟨rest, hrest⟩ := traceStates_head evs (spi_isr ev s)
    show countAdj p (s :: traceStates evs (spi_isr ev s)) = 1
    rw [hrest]
    show (if p s (spi_isr ev s) then 1 else 0) +
      countAdj p (spi_isr ev s :: rest) = 1
    rw [← hrest]
    rcases spi_isr_dichotomy ev s with ⟨hd, hw⟩ | ⟨_, hd, _, _⟩
    · rw [hstep ev s hdir hwoken]
      rw [hd]
      simp only [decide_eq_true_eq]
      rw [if_neg hdir]
      rw [Nat.zero_add]
      exact ih (spi_isr ev s) (by rw [hd]; exact hdir) (by rw [hw]; exact hwoken)
        hfin
    · rw [hstep ev s hdir hwoken, hd]
      rw [traceStates_idle evs _ hd,
        countAdj_replicate p _ (hself _ hd) (evs.length + 1)]
      simp

lemma traceStates_inv (P : EngineState → Prop)
    (hstep : ∀ ev t, P t → P (spi_isr ev t)) :
    ∀ (evs : List BusEvent) (s : EngineState), P s →
      ∀ t ∈ traceStates evs s, P t := by
  intro evs
  induction evs with
  | nil =>
    intro s hs t ht
    simp [traceStates] at ht
    subst ht; exact hs
  | cons ev evs ih =>
    intro s hs t ht
    have ht2 : t ∈ s :: traceStates evs (spi_isr ev s) := ht
    rcases List.mem_cons.mp ht2 with h | h
    · subst h; exact hs
    · exact ih (spi_isr ev s) (hstep ev s hs) t h

lemma spi_isr_woken_idle (ev : BusEvent) (t : EngineState)
    (h : t.woken = true → t.ctx.direction = .Idle) :
    (spi_isr ev t).woken = true → (spi_isr ev t).ctx.direction = .Idle := by
  rcases spi_isr_dichotomy ev t with ⟨hd, hw⟩ | ⟨_, hd, _, _⟩
  · intro hwt
    rw [hd]
    exact h (hw ▸ hwt)
  · intro _
    exact hd

lemma adjPairs_traceStates : ∀ (evs : List BusEvent) (s : EngineState),
    ∀ p ∈ adjPairs (traceStates evs s),
      p.1 ∈ traceStates evs s ∧ ∃ ev, p.2 = spi_isr ev p.1 := by
  intro evs
  induction evs with
  | nil =>
    intro s p hp
    simp [traceStates, adjPairs] at hp
  | cons ev evs ih =>
    intro s p hp
    obtain ⟨rest, hrest⟩ := traceStates_head evs (spi_isr ev s)
    have hshape : traceStates (ev :: evs) s = s :: spi_isr ev s :: rest := by
      show s :: traceStates evs (spi_isr ev s) = _
      rw [hrest]
    rw [hshape] at hp ⊢
    simp only [adjPairs, List.tail_cons, List.zip_cons_cons] at hp
    rcases List.mem_cons.mp hp with h | h
    · subst h
      exact ⟨List.mem_cons_self _ _, ev, rfl⟩
    · have h2 : p ∈ adjPairs (traceStates evs (spi_isr ev s)) := by
        rw [hrest]
        exact h
      obtain ⟨hm, hex⟩ := ih (spi_isr ev s) p h2
      rw [hrest] at hm
      exact ⟨List.mem_cons_of_mem _ hm, hex⟩

lemma idleCommitStep_isr (ev : BusEvent) (t : EngineState)
    (hdir : t.ctx.direction ≠ .Idle) :
    idleCommitStep t (spi_isr ev t) =
      decide ((spi_isr ev t).ctx.direction = .Idle) := by
  by_cases hI : (spi_isr ev t).ctx.direction = .Idle <;>
    simp [idleCommitStep, hdir, hI]

lemma wakeStep_isr (ev : BusEvent) (t : EngineState)
    (hdir : t.ctx.direction ≠ .Idle) (hw : t.woken = false) :
    wakeStep t (spi_isr ev t) =
      decide ((spi_isr ev t).ctx.direction = .Idle) := by
  rcases spi_isr_dichotomy ev t with ⟨hd, hww⟩ | ⟨_, hd, hww, _⟩
  · simp [wakeStep, hww, hw, hd, hdir]
  · simp [wakeStep, hww, hw, hd]

lemma wake_eq_idleCommit_step (ev : BusEvent) (a : EngineState)
    (ha : a.woken = true → a.ctx.direction = .Idle) :
    wakeStep a (spi_isr ev a) = idleCommitStep a (spi_isr ev a) ∧
    (idleCommitStep a (spi_isr ev a) = true →
      (spi_isr ev a).ctx.cursor = (spi_isr ev a).ctx.length) := by
  by_cases hI : a.ctx.direction = .Idle
  · rw [spi_isr_idle a ev hI]
    constructor
    · simp [wakeStep, idleCommitStep, hI]
    · intro hcomm
      simp [idleCommitStep, hI] at hcomm
  · have hw : a.woken = false := by
      rcases Bool.eq_false_or_eq_true a.woken with h | h
      · exact absurd (ha h) hI
      · exact h
    rcases spi_isr_dichotomy ev a with ⟨hd, hww⟩ | ⟨_, hd, hww, hcl⟩
    · constructor
      · simp [wakeStep, idleCommitStep, hww, hw, hd, hI]
      · intro hcomm
        simp [idleCommitStep, hd, hI] at hcomm
    · constructor
      · simp [wakeStep, idleCommitStep, hww, hw, hd, hI]
      · intro _
        exact hcl

/-- C4: in every transaction the direction transitions to Idle exactly once,
exactly at the step where the cursor becomes equal to the length, and only
interrupt-handler steps make up the trace; the foreground caller is woken
exactly once, by the same handler step, and a state whose wake flag is set
always already has direction Idle (the wake is signalled only after the Idle
transition is committed). -/
theorem idle_transition_and_wake_once (reg len : Nat) (data replies buf : List Nat)
    (s sr : EngineState)
    (hlen : data.length = len) (hpos : 1 ≤ len)
    (hbuf : buf.length = len) (hrep : replies.length = len) :
    (spi_write reg data len s =
      (deassertSelect (disableInterrupt
        (runEvents (writeEvents len) (writeArmed reg data len s))), 0)) ∧
    (spi_read reg buf len replies sr =
      (deassertSelect (disableInterrupt
        (runEvents (readEvents replies) (readArmed reg buf len sr))),
       (deassertSelect (disableInterrupt
        (runEvents (readEvents replies) (readArmed reg buf len sr)))).ctx.buffer,
       0)) ∧
    (writeArmed reg data len s).ctx.direction = .Transmitting ∧
    (writeArmed reg data len s).woken = false ∧
    (readArmed reg buf len sr).ctx.direction = .Receiving ∧
    (readArmed reg buf len sr).woken = false ∧
    countAdj idleCommitStep
      (traceStates (writeEvents len) (writeArmed reg data len s)) = 1 ∧
    countAdj wakeStep
      (traceStates (writeEvents len) (writeArmed reg data len s)) = 1 ∧
    countAdj idleCommitStep
      (traceStates (readEvents replies) (readArmed reg buf len sr)) = 1 ∧
    countAdj wakeStep
      (traceStates (readEvents replies) (readArmed reg buf len sr)) = 1 ∧
    (∀ p ∈ adjPairs (traceStates (writeEvents len) (writeArmed reg data len s)),
      (idleCommitStep p.1 p.2 = true → p.2.ctx.cursor = p.2.ctx.length) ∧
      wakeStep p.1 p.2 = idleCommitStep p.1 p.2) ∧
    (∀ p ∈ adjPairs (traceStates (readEvents replies) (readArmed reg buf len sr)),
      (idleCommitStep p.1 p.2 = true → p.2.ctx.cursor = p.2.ctx.length) ∧
      wakeStep p.1 p.2 = idleCommitStep p.1 p.2) ∧
    (∀ t ∈ traceStates (writeEvents len) (writeArmed reg data len s),
      t.woken = true → t.ctx.direction = .Idle) ∧
    (∀ t ∈ traceStates (readEvents replies) (readArmed reg buf len sr),
      t.woken = true → t.ctx.direction = .Idle) := by
  have hwFin : (runEvents (writeEvents len) (writeArmed reg data len s)).ctx.direction
      = .Idle := by
    rw [show writeArmed reg data len s =
      { ctx := { direction := .Transmitting, buffer := data, length := len, cursor := 0 },
        selectLow := true, interruptEnabled := true, woken := false,
        busTx := s.busTx ++ [(reg % 128, true)] } from rfl]
    rw [runEvents_writeEvents len _ (by simp) hpos (by simp) (by simp; omega)]
  have hrFin : (runEvents (readEvents replies) (readArmed reg buf len sr)).ctx.direction
      = .Idle := by
    rw [show readArmed reg buf len sr =
      { ctx := { direction := .Receiving, buffer := buf, length := len, cursor := 0 },
        selectLow := true, interruptEnabled := true, woken := false,
        busTx := sr.busTx ++ [(reg ||| 128, true)] } from rfl]
    rw [runEvents_readEvents replies _ (by simp) (by omega) (by simp [hrep])
      (by simp [hbuf])]
  have hwDir : (writeArmed reg data len s).ctx.direction = .Transmitting := rfl
  have hwW : (writeArmed reg data len s).woken = false := rfl
  have hrDir : (readArmed reg buf len sr).ctx.direction = .Receiving := rfl
  have hrW : (readArmed reg buf len sr).woken = false := rfl
  have hwNI : (writeArmed reg data len s).ctx.direction ≠ .Idle := by
    rw [hwDir]; intro h; cases h
  have hrNI : (readArmed reg buf len sr).ctx.direction ≠ .Idle := by
    rw [hrDir]; intro h; cases h
  have hWokenIdleW := traceStates_inv (fun t => t.woken = true → t.ctx.direction = .Idle)
    spi_isr_woken_idle (writeEvents len) (writeArmed reg data len s)
    (fun h => absurd (hwW ▸ h) (by simp))
  have hWokenIdleR := traceStates_inv (fun t => t.woken = true → t.ctx.direction = .Idle)
    spi_isr_woken_idle (readEvents replies) (readArmed reg buf len sr)
    (fun h => absurd (hrW ▸ h) (by simp))
  refine ⟨rfl, rfl, hwDir, hwW, hrDir, hrW, ?_, ?_, ?_, ?_, ?_, ?_, hWokenIdleW,
    hWokenIdleR⟩
  · exact countAdj_traceStates_commit idleCommitStep
      (fun ev t hd _ => idleCommitStep_isr ev t hd)
      (fun t hd => by simp [idleCommitStep, hd]) _ _ hwNI hwW hwFin
  · exact countAdj_traceStates_commit wakeStep wakeStep_isr
      (fun t _ => by simp [wakeStep]) _ _ hwNI hwW hwFin
  · exact countAdj_traceStates_commit idleCommitStep
      (fun ev t hd _ => idleCommitStep_isr ev t hd)
      (fun t hd => by simp [idleCommitStep, hd]) _ _ hrNI hrW hrFin
  · exact countAdj_traceStates_commit wakeStep wakeStep_isr
      (fun t _ => by simp [wakeStep]) _ _ hrNI hrW hrFin
  · intro p hp
    obtain ⟨hm, ev, hev⟩ := adjPairs_traceStates _ _ p hp
    have ha := hWokenIdleW p.1 hm
    rw [hev]
    exact ⟨(wake_eq_idleCommit_step ev p.1 ha).2, (wake_eq_idleCommit_step ev p.1 ha).1⟩
  · intro p hp
    obtain ⟨hm, ev, hev⟩ := adjPairs_traceStates _ _ p hp
    have ha := hWokenIdleR p.1 hm
    rw [hev]
    exact ⟨(wake_eq_idleCommit_step ev p.1 ha).2, (wake_eq_idleCommit_step ev p.1 ha).1⟩

lemma spi_isr_cursorInv (ev : BusEvent) (t : EngineState) :
    cursorInv t → cursorInv (spi_isr ev t) := by
  obtain ⟨⟨d, buf, len, cur⟩, sel, ie, w, tx⟩ := t
  intro ⟨h1, h2⟩
  simp only [cursorInv] at *
  cases d <;> cases ev <;> simp only [spi_isr, sendByte]
  · exact ⟨h1, h2⟩
  · exact ⟨h1, h2⟩
  · by_cases hc : cur + 1 = len
    · rw [if_pos hc]
      constructor
      · simp; omega
      · intro h; simp at h
    · rw [if_neg hc]
      constructor
      · simp at h2 ⊢; omega
      · intro _; simp at h2 ⊢; omega
  · exact ⟨h1, h2⟩
  · exact ⟨h1, h2⟩
  · by_cases hc : cur + 1 = len
    · rw [if_pos hc]
      constructor
      · simp; omega
      · intro h; simp at h
    · rw [if_neg hc]
      constructor
      · simp at h2 ⊢; omega
      · intro _; simp at h2 ⊢; omega

lemma spi_isr_cursor_step (ev : BusEvent) (t : EngineState) :
    (spi_isr ev t).ctx.cursor = t.ctx.cursor ∨
    (spi_isr ev t).ctx.cursor = t.ctx.cursor + 1 := by
  obtain ⟨⟨d, buf, len, cur⟩, sel, ie, w, tx⟩ := t
  cases d <;> cases ev <;> simp only [spi_isr, sendByte]
  · left; trivial
  · left; trivial
  · by_cases hc : cur + 1 = len
    · rw [if_pos hc]; right; rfl
    · rw [if_neg hc]; right; rfl
  · left; trivial
  · left; trivial
  · by_cases hc : cur + 1 = len
    · rw [if_pos hc]; right; rfl
    · rw [if_neg hc]; right; rfl

/-- C5: the invariant 0 <= cursor <= length holds in every state reachable by
any sequence of hardware events from an armed transaction, and every single
interrupt-handler invocation advances the cursor by at most one, so no buffer
position is skipped or handled twice. -/
theorem cursor_bounds_invariant (evs : List BusEvent) (reg len : Nat)
    (data buf : List Nat) (s sr : EngineState) (hpos : 1 ≤ len) :
    (∀ ev t, (spi_isr ev t).ctx.cursor = t.ctx.cursor ∨
             (spi_isr ev t).ctx.cursor = t.ctx.cursor + 1) ∧
    cursorInv (writeArmed reg data len s) ∧
    cursorInv (readArmed reg buf len sr) ∧
    (∀ t ∈ traceStates evs (writeArmed reg data len s),
      t.ctx.cursor ≤ t.ctx.length) ∧
    (∀ t ∈ traceStates evs (readArmed reg buf len sr),
      t.ctx.cursor ≤ t.ctx.length) := by
  have hw : cursorInv (writeArmed reg data len s) := by
    constructor
    · show (0 : Nat) ≤ len; omega
    · intro _; show (0 : Nat) < len; omega
  have hr : cursorInv (readArmed reg buf len sr) := by
    constructor
    · show (0 : Nat) ≤ len; omega
    · intro _; show (0 : Nat) < len; omega
  refine ⟨spi_isr_cursor_step, hw, hr, ?_, ?_⟩
  · intro t ht
    exact (traceStates_inv cursorInv spi_isr_cursorInv evs _ hw t ht).1
  · intro t ht
    exact (traceStates_inv cursorInv spi_isr_cursorInv evs _ hr t ht).1

/-- C7: the SPI peripheral is configured to shift each byte most-significant
bit first (the init_spi parameter block selects EUSCI_B_SPI_MSB_FIRST), and
the wire protocol is the address byte, whose most-significant bit carries the
read/write flag, followed by the N data bytes. -/
theorem msb_first_wire_protocol (reg len : Nat) (data buf replies : List Nat)
    (s sr : EngineState)
    (hlen : data.length = len) (hpos : 1 ≤ len)
    (hbuf : buf.length = len) (hrep : replies.length = len) :
    init_spi_param.msbFirst = EUSCI_B_SPI_MSB_FIRST ∧
    EUSCI_B_SPI_MSB_FIRST ≠ EUSCI_B_SPI_LSB_FIRST ∧
    (spi_write reg data len s).1.busTx.map Prod.fst =
      s.busTx.map Prod.fst ++ (reg % 128) :: data ∧
    (spi_read reg buf len replies sr).1.busTx.map Prod.fst =
      sr.busTx.map Prod.fst ++ (reg ||| 128) :: List.replicate len 0 ∧
    (reg % 128).testBit 7 = false ∧
    (reg ||| 128).testBit 7 = true := by
  have hne : EUSCI_B_SPI_MSB_FIRST ≠ EUSCI_B_SPI_LSB_FIRST := by decide
  refine ⟨rfl, hne, ?_, ?_, Nat.testBit_eq_false_of_lt (by omega), ?_⟩
  · rw [spi_write_final reg data len s hlen hpos]
    simp [writeTxSeg, Function.comp_def]
  · rw [spi_read_final reg buf len replies sr hbuf hrep hpos]
    simp [readTxSeg, Function.comp_def]
  · rw [Nat.testBit_lor]
    have h128 : Nat.testBit 128 7 = true := by decide
    simp [h128]

lemma samplingLoop_spec : ∀ (polls : List (Int × Bmi2SensData)) (indx : Nat)
    (recs : List Bmi2SensData), indx ≤ DATA_LEN →
    samplingLoop polls indx recs =
      (recs ++ ((polls.filter (fun p => goodSample p.1 p.2)).map
          Prod.snd).take (DATA_LEN - indx),
       indx + (((polls.filter (fun p => goodSample p.1 p.2)).map
          Prod.snd).take (DATA_LEN - indx)).length,
       decide (DATA_LEN - indx ≤
         (polls.filter (fun p => goodSample p.1 p.2)).length)) := by
  intro polls
  induction polls with
  | nil =>
    intro indx recs hle
    by_cases hlt : indx < DATA_LEN
    · simp [samplingLoop, hlt]
      omega
    · have : indx = DATA_LEN := by omega
      subst this
      simp [samplingLoop]
  | cons p rest ih =>
    intro indx recs hle
    obtain ⟨rslt, d⟩ := p
    by_cases hlt : indx < DATA_LEN
    · by_cases hg : goodSample rslt d
      · show samplingLoop ((rslt, d) :: rest) indx recs = _
        simp only [samplingLoop, if_pos hlt, if_pos hg]
        rw [ih (indx + 1) (recs ++ [d]) (by omega)]
        have htake : DATA_LEN - indx = (DATA_LEN - (indx + 1)) + 1 := by omega
        simp only [List.filter_cons, hg, List.map_cons, htake, List.take_succ_cons,
          Prod.mk.injEq]
        refine ⟨by simp, by simp; omega, ?_⟩
        have hiff : DATA_LEN - (indx + 1) + 1 ≤
            (rest.filter (fun p => goodSample p.1 p.2)).length + 1 ↔
            DATA_LEN - (indx + 1) ≤
            (rest.filter (fun p => goodSample p.1 p.2)).length := by omega
        simp [hiff]
      · show samplingLoop ((rslt, d) :: rest) indx recs = _
        simp only [samplingLoop, if_pos hlt, if_neg hg]
        rw [ih indx recs hle]
        simp only [List.filter_cons, hg]
        simp
    · have : indx = DATA_LEN := by omega
      subst this
      show samplingLoop ((rslt, d) :: rest) DATA_LEN recs = _
      simp [samplingLoop]

/-- C8: the sampling loop of main stores a record, and increments indx,
exactly for the polls where bmi2_get_sensor_data returned BMI2_OK with both
data-ready bits set in the status; it reports termination exactly when the
poll stream offers at least DATA_LEN such records, in which case exactly
DATA_LEN records are stored, and every stored record has both data-ready
flags set. -/
theorem sampling_loop_records (polls : List (Int × Bmi2SensData)) :
    (samplingLoop polls 0 []).1 =
      ((polls.filter (fun p => goodSample p.1 p.2)).map Prod.snd).take DATA_LEN ∧
    (samplingLoop polls 0 []).2.1 = (samplingLoop polls 0 []).1.length ∧
    ((samplingLoop polls 0 []).2.2 = true ↔
      DATA_LEN ≤ (polls.filter (fun p => goodSample p.1 p.2)).length) ∧
    ((samplingLoop polls 0 []).2.2 = true →
      (samplingLoop polls 0 []).1.length = DATA_LEN) ∧
    (∀ d ∈ (samplingLoop polls 0 []).1,
      d.status &&& BMI2_DRDY_ACC ≠ 0 ∧ d.status &&& BMI2_DRDY_GYR ≠ 0) := by
  rw [samplingLoop_spec polls 0 [] (by omega)]
  simp only [List.nil_append, Nat.sub_zero, Nat.zero_add]
  refine ⟨?_, ?_, ?_, ?_, ?_⟩
  · trivial
  · simp
  · simp
  · intro hterm
    simp at hterm
    simp [List.length_take]
    omega
  · intro d hd
    have hd2 : d ∈ (polls.filter (fun p => goodSample p.1 p.2)).map Prod.snd :=
      List.mem_of_mem_take hd
    obtain ⟨q, hq, hqd⟩ := List.mem_map.mp hd2
    have hgood : goodSample q.1 q.2 = true := (List.mem_filter.mp hq).2
    simp only [goodSample, Bool.and_eq_true, bne_iff_ne, ne_eq] at hgood
    rw [← hqd]
    exact ⟨hgood.1.2, hgood.2⟩

lemma int16_encode (v : Int) (h : int16Range v) :
    [(v % 256).toNat, (v / 256 % 256).toNat] = int16ToBytesLE v := by
  obtain ⟨h1, h2⟩ := h
  simp only [int16ToBytesLE, le16, List.cons.injEq]
  refine ⟨by omega, by omega, trivial⟩

/-- C9: for every record index below DATA_LEN the output loop of main emits
exactly 16 bytes: the little-endian 16-bit pairs indx, sens_time, acc.x,
acc.y, acc.z, gyr.x, gyr.y, gyr.z in this order, where the 32-bit sens_time
and the index are truncated to their low 16 bits. -/
theorem uart_output_layout (sensorData : Nat → Bmi2SensData) (i : Nat)
    (hi : i < DATA_LEN) (hd : recInRange (sensorData i)) :
    (outputLoop sensorData).length = DATA_LEN ∧
    (outputLoop sensorData).getD i [] = outputBytes i (sensorData i) ∧
    (outputBytes i (sensorData i)).length = 16 ∧
    outputBytes i (sensorData i) =
      le16 i ++ le16 (sensorData i).sens_time ++
      int16ToBytesLE (sensorData i).acc.x ++
      int16ToBytesLE (sensorData i).acc.y ++
      int16ToBytesLE (sensorData i).acc.z ++
      int16ToBytesLE (sensorData i).gyr.x ++
      int16ToBytesLE (sensorData i).gyr.y ++
      int16ToBytesLE (sensorData i).gyr.z ∧
    le16 i = le16 (i % 65536) ∧
    le16 (sensorData i).sens_time = le16 ((sensorData i).sens_time % 65536) := by
  obtain ⟨hax, hay, haz, hgx, hgy, hgz⟩ := hd
  refine ⟨by simp [outputLoop], ?_, rfl, ?_, ?_, ?_⟩
  · have hlen : i < (outputLoop sensorData).length := by simp [outputLoop]; omega
    rw [List.getD_eq_getElem _ _ hlen]
    simp [outputLoop]
  · have e1 := int16_encode _ hax
    have e2 := int16_encode _ hay
    have e3 := int16_encode _ haz
    have e4 := int16_encode _ hgx
    have e5 := int16_encode _ hgy
    have e6 := int16_encode _ hgz
    simp only [outputBytes, le16, int16ToBytesLE] at *
    simp only [List.cons.injEq] at e1 e2 e3 e4 e5 e6
    simp [e1.1, e1.2.1, e2.1, e2.2.1, e3.1, e3.2.1, e4.1, e4.2.1, e5.1, e5.2.1,
      e6.1, e6.2.1]
  · simp only [le16, List.cons.injEq]
    refine ⟨by omega, by omega, trivial⟩
  · simp only [le16, List.cons.injEq]
    refine ⟨by omega, by omega, trivial⟩

/-- C10: main samples and emits UART data only if bmi270_init,
set_accel_gyro_config and bmi2_sensor_enable all returned BMI2_OK; if any of
them fails, no sampling happens and nothing is written to the UART. -/
theorem main_gating (env : MainEnv) :
    ((env.initRslt ≠ BMI2_OK ∨ env.cfgRslt ≠ BMI2_OK ∨ env.enableRslt ≠ BMI2_OK) →
      mainRun env = ([], none)) ∧
    (env.initRslt = BMI2_OK → env.cfgRslt = BMI2_OK → env.enableRslt = BMI2_OK →
      (mainRun env).1 = (samplingLoop env.polls 0 []).1) := by
  constructor
  · intro h
    simp only [mainRun]
    split_ifs with h1 h2 h3
    · exfalso
      rcases h with h | h | h <;> exact h (by assumption)
    · rfl
    · rfl
    · rfl
  · intro h1 h2 h3
    simp only [mainRun, if_pos h1, if_pos h2, if_pos h3]
    split
    · rename_i recs rest heq
      simp [heq]
    · rename_i recs rest heq
      simp [heq]

/-- Witness: the C1 contract at the concrete scenario write(0x7E, [0x00], 1). -/
theorem write_contract_witness :
    (spi_write 126 [0] 1 engineStart).1.busTx = [(126, true), (0, true)] ∧
    (spi_write 126 [0] 1 engineStart).2 = 0 := by
  have h := write_contract 126 [0] 1 engineStart rfl (by omega) (by decide) rfl
  exact ⟨by simpa using h.1, h.2.2.2.2.2.2⟩

/-- Witness: the C2 contract at the concrete scenario read(0x0C, buf, 6) with
device replies [1, 2, 3, 4, 5, 6]. -/
theorem read_contract_witness :
    (spi_read 12 [0, 0, 0, 0, 0, 0] 6 [1, 2, 3, 4, 5, 6] engineStart).2.1 =
      [1, 2, 3, 4, 5, 6] ∧
    (spi_read 12 [0, 0, 0, 0, 0, 0] 6 [1, 2, 3, 4, 5, 6] engineStart).1.busTx =
      [(140, true), (0, true), (0, true), (0, true), (0, true), (0, true),
       (0, true)] := by
  have h := read_contract 12 [0, 0, 0, 0, 0, 0] 6 [1, 2, 3, 4, 5, 6] engineStart
    rfl rfl (by omega)
  exact ⟨h.2.1, by simpa using h.1⟩

/-- Witness: the C4 uniqueness counts on concrete one-byte transactions. -/
theorem idle_transition_and_wake_once_witness :
    countAdj idleCommitStep
      (traceStates (writeEvents 1) (writeArmed 126 [0] 1 engineStart)) = 1 ∧
    countAdj wakeStep
      (traceStates (readEvents [5]) (readArmed 12 [0] 1 engineStart)) = 1 := by
  have h := idle_transition_and_wake_once 126 1 [0] [5] [0] engineStart engineStart
    rfl (by omega) rfl rfl
  exact ⟨h.2.2.2.2.2.2.1, h.2.2.2.2.2.2.2.2.2.1⟩

/-- Witness: the C5 invariant on concretely armed transactions. -/
theorem cursor_bounds_invariant_witness :
    cursorInv (writeArmed 126 [0] 1 engineStart) ∧
    cursorInv (readArmed 12 [0] 1 engineStart) := by
  have h := cursor_bounds_invariant [.readyToTransmit] 126 1 [0] [0]
    engineStart engineStart (by omega)
  exact ⟨h.2.1, h.2.2.1⟩

/-- Witness: the C6 sequence write, read, write on concrete arguments. -/
theorem restart_independence_witness :
    (spi_read 12 [0] 1 [9] (spi_write 126 [0] 1 engineStart).1).2.1 = [9] ∧
    (spi_write 55 [7] 1
      (spi_read 12 [0] 1 [9] (spi_write 126 [0] 1 engineStart).1).1).1.ctx.direction
      = .Idle := by
  have h := restart_independence 126 12 55 [0] [7] [0] [9] 1 1 1 engineStart
    rfl (by omega) rfl rfl (by omega) rfl (by omega)
  exact ⟨h.2.2.2.2.2.1, h.2.2.1⟩

/-- Witness: the C7 configuration fact and a concrete write byte stream. -/
theorem msb_first_wire_protocol_witness :
    init_spi_param.msbFirst = EUSCI_B_SPI_MSB_FIRST ∧
    (spi_write 126 [0] 1 engineStart).1.busTx.map Prod.fst = [126, 0] := by
  have h := msb_first_wire_protocol 126 1 [0] [0] [9] engineStart engineStart
    rfl (by omega) rfl rfl
  exact ⟨h.1, by simpa using h.2.2.1⟩

/-- Witness: the C9 layout on the zero-initialized record array. -/
theorem uart_output_layout_witness :
    (outputLoop (fun _ => Bmi2SensData.zero)).length = DATA_LEN ∧
    (outputBytes 0 Bmi2SensData.zero).length = 16 := by
  have h := uart_output_layout (fun _ => Bmi2SensData.zero) 0 (by simp [DATA_LEN])
    (by refine ⟨⟨?_, ?_⟩, ⟨?_, ?_⟩, ⟨?_, ?_⟩, ⟨?_, ?_⟩, ⟨?_, ?_⟩, ⟨?_, ?_⟩⟩ <;> simp [Bmi2SensData.zero])
  exact ⟨h.1, h.2.2.1⟩

/-- Witness: the C10 gate with a failing bmi270_init status. -/
theorem main_gating_witness :
    mainRun { initRslt := -1, cfgRslt := 0, enableRslt := 0, polls := [] } =
      ([], none) :=
  (main_gating _).1 (Or.inl (by decide))
